import Mathlib

/-!
Verification development for the crev dependency-review tool.

The embedding covers three source modules:
- the content digest of a directory tree (crev-common hashing helpers and the
  recursive directory digest used through crev-lib),
- the tamper-evident digest capture in review_crate (cargo-crev main.rs),
- the per-dependency verification pipeline DepComputer (cargo-crev dep/computer.rs).

Machine integers of the source are modelled as Nat (all values involved are
counts and never wrap in practice); fallible calls return Option or Except.
-/

namespace Crev

/-! ## ContentDigest

Modelled from the spec: the recursive directory digest
(crev-lib get_recursive_digest_for_dir / get_dir_digest) is not under src;
only the hashing primitives blake2b256sum and read_file_to_digest_input are.
Following the spec (section 4.3): traverse entries in lexicographic order of
relative path, exclude exact matches of the ignore list, fold relative path
and raw bytes of every included entry into a fixed-output hash.  The hash is
treated as injective (collisions are outside the deterministic model), so the
digest value is represented by the canonical normalized entry sequence that
the hash consumes. -/

/-- Model of a directory tree: a list of files, each a relative path (list of
components) paired with its byte content. -/
abbrev Tree : Type := List (List String × List Nat)

/-- Entries of the tree whose relative path is not an exact match of the
ignore list. -/
def included (t : Tree) (ign : List (List String)) : Tree :=
  List.filter (fun e => !(decide (e.1 ∈ ign))) t

/-- Ordering used to normalize entry order: lexicographic by relative path,
ties broken by content (included paths of a real tree are distinct, so the
tie-break never fires there; it only makes the order antisymmetric). -/
def entryLe (a b : List String × List Nat) : Prop :=
  a.1 < b.1 ∨ (a.1 = b.1 ∧ a.2 ≤ b.2)

instance entryLe.instDecRel : DecidableRel entryLe :=
  fun a b => inferInstanceAs (Decidable (a.1 < b.1 ∨ (a.1 = b.1 ∧ a.2 ≤ b.2)))

instance entryLe.instTotal : IsTotal (List String × List Nat) entryLe where
  total a b := by
    rcases lt_trichotomy a.1 b.1 with h | h | h
    · exact Or.inl (Or.inl h)
    · rcases le_total a.2 b.2 with h2 | h2
      · exact Or.inl (Or.inr ⟨h, h2⟩)
      · exact Or.inr (Or.inr ⟨h.symm, h2⟩)
    · exact Or.inr (Or.inl h)

instance entryLe.instTrans : IsTrans (List String × List Nat) entryLe where
  trans a b c hab hbc := by
    rcases hab with h1 | ⟨e1, h1⟩
    · rcases hbc with h2 | ⟨e2, h2⟩
      · exact Or.inl (h1.trans h2)
      · exact Or.inl (e2 ▸ h1)
    · rcases hbc with h2 | ⟨e2, h2⟩
      · exact Or.inl (e1 ▸ h2)
      · exact Or.inr ⟨e1.trans e2, h1.trans h2⟩

instance entryLe.instAntisymm : IsAntisymm (List String × List Nat) entryLe where
  antisymm a b hab hba := by
    obtain ⟨a1, a2⟩ := a
    obtain ⟨b1, b2⟩ := b
    rcases hab with h1 | ⟨e1, h1⟩
    · rcases hba with h2 | ⟨e2, h2⟩
      · exact absurd (h1.trans h2) (lt_irrefl a1)
      · simp only at e2
        rw [e2] at h1
        exact absurd h1 (lt_irrefl a1)
    · rcases hba with h2 | ⟨e2, h2⟩
      · simp only at e1
        rw [e1] at h2
        exact absurd h2 (lt_irrefl b1)
      · simp only [Prod.mk.injEq]
        exact ⟨e1, le_antisymm h1 h2⟩

/-- Modelled from the spec: the content digest of a tree given an ignore
list, represented by the canonical (sorted, exclusion-normalized) sequence of
included entries that the fixed-output hash consumes. -/
def ContentDigest (t : Tree) (ign : List (List String)) : Tree :=
  List.insertionSort entryLe (included t ign)

/-- First content stored under a given relative path, if any. -/
def lookupPath (p : List String) : Tree → Option (List Nat)
  | [] => none
  | e :: rest => if e.1 = p then some e.2 else lookupPath p rest

/-- Relative paths of the entries of a tree. -/
def keys (t : Tree) : List (List String) :=
  t.map (fun e => e.1)

/-- Replace the content stored under a given relative path. -/
def setContent (t : Tree) (p : List String) (c : List Nat) : Tree :=
  t.map (fun e => if e.1 = p then (e.1, c) else e)

/-! ## Tamper-evident digest capture: review_crate (cargo-crev src/main.rs)

Shallow embedding of review_crate as the sequence of steps the source
performs, over an environment that fixes the outcome of every collaborator
and filesystem call.  The output records the final result, the trace of
filesystem mutations and the signing step, and whether the crate directory
and the quarantine directory exist afterwards.  The assert on the working
directory is modelled as a Policy rejection, per the error taxonomy of the
spec (section 9). -/

/-- Filesystem mutations and the signing step of review_crate, in order of
occurrence. -/
inductive RcEvent
  | fetch
  | removeDir (p : List String)
  | rename (a b : List String)
  | sign
deriving DecidableEq, Repr

/-- Failure cases of review_crate. -/
inductive RcError
  | notFound
  | policy
  | io
  | consistency
  | digestMismatch (clean reviewed : List Nat)
  | signFailure
deriving DecidableEq, Repr

/-- Environment of one review_crate run: results of the collaborator and
filesystem calls, in source order.  find1/find2 are the two find_crate
calls (package directory and version); fetch1 tells whether the first
find_crate had to download the crate (cargo downloads any missing registry
dependency while resolving); the booleans record success of the fallible
filesystem and signing steps. -/
structure RcEnv where
  cwd : List String
  find1 : Option (List String × Nat)
  fetch1 : Bool
  localOk : Bool
  quarantineExists : Bool
  removeOldOk : Bool
  renameOk : Bool
  find2 : Option (List String × Nat)
  digestClean : Option (List Nat)
  digestReviewed : Option (List Nat)
  removeReviewedOk : Bool
  signOk : Bool

/-- Result of a run: outcome, event trace, and whether the crate directory
and the quarantine directory exist on disk afterwards. -/
structure RcOut where
  result : Except RcError (List Nat)
  events : List RcEvent
  pkgPresent : Bool
  quarantinePresent : Bool

/-- Component prefix test, modelling Path::starts_with of the source:
pathStartsWith p base is true when base is a component prefix of p. -/
def pathStartsWith : List String → List String → Bool
  | _, [] => true
  | [], _ :: _ => false
  | a :: as, b :: bs => a == b && pathStartsWith as bs

/-- Quarantine path of a crate directory, modelling
pkg_dir.with_extension of the source: the last component gains the
crev.reviewed extension. -/
def withReviewedExt : List String → List String
  | [] => [".crev.reviewed"]
  | [c] => [c ++ ".crev.reviewed"]
  | c :: rest => c :: withReviewedExt rest

/-- Comparison stage of review_crate: digests of the fresh and the
quarantined copy are in hand; compare, delete the quarantine and sign on
equality, fail with a digest mismatch on inequality leaving both copies in
place (src/cargo-crev/src/main.rs, lines 205-244). -/
def rc_compare (ev : List RcEvent) (rdir : List String) (dc dr : List Nat)
    (rrOk sOk : Bool) : RcOut :=
  if dc ≠ dr then
    ⟨Except.error (RcError.digestMismatch dc dr), ev, true, true⟩
  else if !rrOk then
    ⟨Except.error RcError.io, ev, true, true⟩
  else if !sOk then
    ⟨Except.error RcError.signFailure, ev ++ [RcEvent.removeDir rdir], true, false⟩
  else
    ⟨Except.ok dc, ev ++ [RcEvent.removeDir rdir] ++ [RcEvent.sign], true, false⟩

/-- Digest stage of review_crate: compute the digest of the freshly fetched
copy, then of the quarantined copy; an IO failure of either aborts
(src/cargo-crev/src/main.rs, lines 205-207). -/
def rc_digests (ev : List RcEvent) (rdir : List String)
    (dgc dgr : Option (List Nat)) (rrOk sOk : Bool) : RcOut :=
  match dgc with
  | none => ⟨Except.error RcError.io, ev, true, true⟩
  | some dc =>
    match dgr with
    | none => ⟨Except.error RcError.io, ev, true, true⟩
    | some dr => rc_compare ev rdir dc dr rrOk sOk

/-- Re-fetch stage of review_crate: run find_crate again (the crate
directory was just moved away, so this downloads a fresh copy), then check
the resolver returned the same coordinates
(src/cargo-crev/src/main.rs, lines 200-203). -/
def rc_fetch2 (ev : List RcEvent) (rdir p : List String) (v : Nat)
    (find2 : Option (List String × Nat)) (dgc dgr : Option (List Nat))
    (rrOk sOk : Bool) : RcOut :=
  match find2 with
  | none => ⟨Except.error RcError.notFound, ev, false, true⟩
  | some (p2, v2) =>
    if p2 ≠ p ∨ v2 ≠ v then
      ⟨Except.error RcError.consistency, ev ++ [RcEvent.fetch], true, true⟩
    else
      rc_digests (ev ++ [RcEvent.fetch]) rdir dgc dgr rrOk sOk

/-- Embedding of review_crate (src/cargo-crev/src/main.rs, lines 180-245):
find the crate, reject a crate inside the working directory, move the
target to the quarantine path (deleting a stale quarantine first),
re-download, check the resolver returned the same coordinates, digest both
copies, compare, delete the quarantine on equality and sign the digest, or
fail with a digest mismatch leaving both copies in place. -/
def review_crate (env : RcEnv) : RcOut :=
  let ev0 : List RcEvent := if env.fetch1 then [RcEvent.fetch] else []
  match env.find1 with
  | none => ⟨Except.error RcError.notFound, ev0, false, env.quarantineExists⟩
  | some (pkg_dir, crate_version) =>
    if pathStartsWith pkg_dir env.cwd then
      ⟨Except.error RcError.policy, ev0, true, env.quarantineExists⟩
    else if !env.localOk then
      ⟨Except.error RcError.io, ev0, true, env.quarantineExists⟩
    else if env.quarantineExists && !env.removeOldOk then
      ⟨Except.error RcError.io, ev0, true, true⟩
    else
      let reviewed_pkg_dir := withReviewedExt pkg_dir
      let ev1 := if env.quarantineExists then ev0 ++ [RcEvent.removeDir reviewed_pkg_dir] else ev0
      if !env.renameOk then
        ⟨Except.error RcError.io, ev1, true, false⟩
      else
        rc_fetch2 (ev1 ++ [RcEvent.rename pkg_dir reviewed_pkg_dir]) reviewed_pkg_dir
          pkg_dir crate_version env.find2 env.digestClean env.digestReviewed
          env.removeReviewedOk env.signOk

/-- Concrete environment: a crate lying outside the working directory,
with a successful re-fetch and equal digests. -/
def rcEnvOk : RcEnv :=
  ⟨["home", "user", "proj"], some (["registry", "src", "dep"], 1), false, true,
    false, true, true, some (["registry", "src", "dep"], 1),
    some [7, 7, 7], some [7, 7, 7], true, true⟩

/-- Concrete environment: the crate directory lies inside the working
directory of the caller, and the crate lookup had to download it first. -/
def rcEnvInside : RcEnv :=
  ⟨["home", "user", "proj"], some (["home", "user", "proj", "vendor", "dep"], 1),
    true, true, false, true, true, none, none, none, true, true⟩

/-! ## DepComputer (cargo-crev src/dep/computer.rs)

Shallow embedding of the per-dependency verification pipeline.  The
collaborators that live outside this module (proof database queries,
crates.io client, tokei line count) are modelled as oracle functions and
data carried by the computer and the row; the review and issue stores are
modelled as lists so that the counting queries are real filters.  Stage
timers are modelled by per-row elapsed amounts added exactly where the
source adds Instant elapsed times. -/

/-- Review counts for one version versus the whole package
(dep/dep.rs CrateCounts; u64 modelled as Nat). -/
structure CrateCounts where
  version : Nat
  total : Nat
deriving DecidableEq, Repr

/-- Counts restricted to trusted entries versus all entries
(dep/dep.rs TrustCount). -/
structure TrustCount where
  trusted : Nat
  total : Nat
deriving DecidableEq, Repr

/-- Cross-run stage timing accumulator (computer.rs lines 20-28). -/
structure Durations where
  digest : Nat
  loc : Nat
  latest_trusted : Nat
  issues : Nat
  total : Nat
deriving DecidableEq, Repr

/-- Final per-dependency record (dep/dep.rs Dep); the trust verdict is
carried through its is_verified projection. -/
structure Dep where
  digest : List Nat
  name : String
  version : Nat
  latest_trusted_version : Option Nat
  reviews : CrateCounts
  downloads : Option CrateCounts
  owners : Option TrustCount
  issues : TrustCount
  loc : Option Nat
  has_custom_build : Bool
  unclean_digest : Bool
  verified : Bool
deriving DecidableEq, Repr

/-- Lifecycle of one dependency computation (dep/dep.rs). -/
inductive ComputationStatus
  | Pending
  | InProgress
  | Ok (dep : Dep)
  | Skipped
  | Failed
deriving DecidableEq, Repr

/-- One package review stored in the proof database. -/
structure Review where
  source : String
  name : String
  version : Nat
deriving DecidableEq, Repr

/-- One open issue stored in the proof database; level is the effective
trust level of the reporting identity in the trust set. -/
structure Issue where
  name : String
  version : Nat
  level : Nat
deriving DecidableEq, Repr

/-- Proof database handle: review and issue stores as data, the remaining
queries (digest verification, digest cleanliness, latest trusted version)
as oracle functions fixed for the run. -/
structure ProofDB where
  reviews : List Review
  issues : List Issue
  verifyDigest : List Nat → Bool
  isDigestClean : String → Nat → List Nat → Bool
  latestTrusted : String → Option Nat

/-- Source identifier of the crates.io registry
(PROJECT_SOURCE_CRATES_IO in the source). -/
def cratesIoSource : String := "https://crates.io"

/-- Count of package reviews matching the given source and optional name
and version filters (crev-lib get_package_review_count, modelled as a
filter over the review store). -/
def get_package_review_count (db : ProofDB) (source : String)
    (name : Option String) (version : Option Nat) : Nat :=
  (db.reviews.filter (fun r =>
    r.source == source &&
    (match name with
     | some n => r.name == n
     | none => true) &&
    (match version with
     | some v => r.version == v
     | none => true))).length

/-- Open issues for an exact (name, version) reported by identities of
effective trust level at least minLevel (crev-lib
get_open_issues_for_version, modelled as a filter over the issue store). -/
def get_open_issues_for_version (db : ProofDB) (name : String)
    (version : Nat) (minLevel : Nat) : List Issue :=
  db.issues.filter (fun i =>
    i.name == name && i.version == version && decide (minLevel ≤ i.level))

/-- One dependency row (dep/dep.rs DepRow): its coordinates, the outcome of
the fallible tree digest, the tokei line count oracle for its root, the
per-stage elapsed amounts of this call, and the lifecycle status. -/
structure DepRow where
  name : String
  version : Nat
  digest_result : Option (List Nat)
  has_custom_build : Bool
  loc_result : Option Nat
  tDigest : Nat
  tIssues : Nat
  tLoc : Nat
  tLatest : Nat
  tTotal : Nat
  computation_status : ComputationStatus

/-- The dependency computer (computer.rs lines 35-45): database handle,
known owners set, policy trust level, skip flags, crates.io oracles and
the timing accumulator. -/
structure DepComputer where
  db : ProofDB
  known_owners : List String
  trust_level : Nat
  skip_verified : Bool
  skip_known_owners : Bool
  get_downloads_count : String → Nat → Option (Nat × Nat)
  get_owners : String → Option (List String)
  durations : Durations

/-- Owners of the package that are in the known-owners set
(computer.rs lines 126-129). -/
def known_owners_in (c : DepComputer) (os : List String) : List String :=
  os.filter (fun o => c.known_owners.contains o)

/-- The known-owners skip condition of computer.rs lines 123-133: the
owners lookup succeeded, the known subset is non-empty and the flag is
set. -/
def owners_skip (c : DepComputer) (name : String) : Bool :=
  match c.get_owners name with
  | some os => decide (0 < (known_owners_in c os).length) && c.skip_known_owners
  | none => false

/-- Embedding of DepComputer::try_compute (computer.rs lines 78-197).
Returns the computer with updated durations and the Result of the source:
an error when the tree digest fails (the one fallible call propagated with
the question mark operator), Ok none for a skip, Ok some for a full
record. -/
def try_compute (c : DepComputer) (row : DepRow) :
    DepComputer × Except Unit (Option Dep) :=
  match row.digest_result with
  | none => (c, Except.error ())
  | some digest =>
    let name := row.name
    let version := row.version
    let unclean_digest := !(c.db.isDigestClean name version digest)
    let verified := c.db.verifyDigest digest
    let c1 : DepComputer :=
      { c with durations := { c.durations with digest := c.durations.digest + row.tDigest } }
    if verified && c1.skip_verified then
      ({ c1 with durations :=
          { c1.durations with total := c1.durations.total + row.tTotal } },
        Except.ok none)
    else
      let version_reviews_count :=
        get_package_review_count c1.db cratesIoSource (some name) (some version)
      let total_reviews_count :=
        get_package_review_count c1.db cratesIoSource (some name) none
      let reviews : CrateCounts := ⟨version_reviews_count, total_reviews_count⟩
      let downloads : Option CrateCounts :=
        match c1.get_downloads_count name version with
        | some (v, t) => some ⟨v, t⟩
        | none => none
      if owners_skip c1 name then
        ({ c1 with durations :=
            { c1.durations with total := c1.durations.total + row.tTotal } },
          Except.ok none)
      else
        let owners : Option TrustCount :=
          match c1.get_owners name with
          | some os => some ⟨(known_owners_in c1 os).length, os.length⟩
          | none => none
        let issues_from_trusted :=
          get_open_issues_for_version c1.db name version c1.trust_level
        let issues_from_all :=
          get_open_issues_for_version c1.db name version 0
        let issues : TrustCount := ⟨issues_from_trusted.length, issues_from_all.length⟩
        let c2 : DepComputer :=
          { c1 with durations :=
            { c1.durations with issues := c1.durations.issues + row.tIssues } }
        let loc := row.loc_result
        let c3 : DepComputer :=
          { c2 with durations := { c2.durations with loc := c2.durations.loc + row.tLoc } }
        let latest_trusted_version := c3.db.latestTrusted name
        let c4 : DepComputer :=
          { c3 with durations :=
            { c3.durations with latest_trusted := c3.durations.latest_trusted + row.tLatest } }
        let c5 : DepComputer :=
          { c4 with durations := { c4.durations with total := c4.durations.total + row.tTotal } }
        (c5, Except.ok (some
          { digest := digest, name := name, version := version,
            latest_trusted_version := latest_trusted_version, reviews := reviews,
            downloads := downloads, owners := owners, issues := issues, loc := loc,
            has_custom_build := row.has_custom_build,
            unclean_digest := unclean_digest, verified := verified }))

/-- Embedding of DepComputer::compute (computer.rs lines 199-216): set the
row in progress, run try_compute, store the outcome in the status, and on
an error emit the report printed by the source. -/
def compute (c : DepComputer) (row : DepRow) :
    DepComputer × DepRow × Option String :=
  let row1 := { row with computation_status := ComputationStatus.InProgress }
  match try_compute c row1 with
  | (c2, Except.ok (some dep)) =>
    (c2, { row1 with computation_status := ComputationStatus.Ok dep }, none)
  | (c2, Except.ok none) =>
    (c2, { row1 with computation_status := ComputationStatus.Skipped }, none)
  | (c2, Except.error _) =>
    (c2, { row1 with computation_status := ComputationStatus.Failed },
      some "Computation Failed")

/-- Modelled from the spec: the batch driver (spec section 2) that iterates
the resolved dependencies and calls compute on each is not under src for
DepComputer (the driver shipped in src/main.rs predates DepComputer and
inlines its own loop); it iterates rows in order, threading the computer
through. -/
def computeBatch (c : DepComputer) :
    List DepRow → DepComputer × List DepRow × List (Option String)
  | [] => (c, [], [])
  | row :: rest =>
    let r1 := compute c row
    let r2 := computeBatch r1.1 rest
    (r2.1, r1.2.1 :: r2.2.1, r1.2.2 :: r2.2.2)

/-- Status a row ends with when processed by a computer, read off from a
single compute call. -/
def statusAfter (c : DepComputer) (row : DepRow) : ComputationStatus :=
  (compute c row).2.1.computation_status

/-- Report a row emits when processed by a computer. -/
def reportAfter (c : DepComputer) (row : DepRow) : Option String :=
  (compute c row).2.2

/-- Durations after the digest stage and the final total increment, the
shape both skip paths leave behind. -/
def bump_digest_total (d : Durations) (row : DepRow) : Durations :=
  ⟨d.digest + row.tDigest, d.loc, d.latest_trusted, d.issues, d.total + row.tTotal⟩

/-- Durations after every stage of the full path. -/
def bump_all (d : Durations) (row : DepRow) : Durations :=
  ⟨d.digest + row.tDigest, d.loc + row.tLoc, d.latest_trusted + row.tLatest,
    d.issues + row.tIssues, d.total + row.tTotal⟩

/-- The record try_compute assembles on its full path. -/
def full_dep (c : DepComputer) (row : DepRow) (digest : List Nat) : Dep :=
  { digest := digest, name := row.name, version := row.version,
    latest_trusted_version := c.db.latestTrusted row.name,
    reviews :=
      ⟨get_package_review_count c.db cratesIoSource (some row.name) (some row.version),
        get_package_review_count c.db cratesIoSource (some row.name) none⟩,
    downloads :=
      match c.get_downloads_count row.name row.version with
      | some (v, t) => some ⟨v, t⟩
      | none => none,
    owners :=
      match c.get_owners row.name with
      | some os => some ⟨(known_owners_in c os).length, os.length⟩
      | none => none,
    issues :=
      ⟨(get_open_issues_for_version c.db row.name row.version c.trust_level).length,
        (get_open_issues_for_version c.db row.name row.version 0).length⟩,
    loc := row.loc_result,
    has_custom_build := row.has_custom_build,
    unclean_digest := !(c.db.isDigestClean row.name row.version digest),
    verified := c.db.verifyDigest digest }

/-- Concrete proof database for witnesses: two reviews of the sample
package (one per version) and two open issues of version 1 at reporter
levels 3 and 0. -/
def dbW : ProofDB :=
  { reviews := [⟨cratesIoSource, "sample", 1⟩, ⟨cratesIoSource, "sample", 2⟩],
    issues := [⟨"sample", 1, 3⟩, ⟨"sample", 1, 0⟩],
    verifyDigest := fun _ => false,
    isDigestClean := fun _ _ _ => true,
    latestTrusted := fun _ => some 2 }

/-- Concrete computer for witnesses: both skip flags unset, one known
owner, working registry oracles. -/
def cW : DepComputer :=
  { db := dbW, known_owners := ["alice"], trust_level := 2,
    skip_verified := false, skip_known_owners := false,
    get_downloads_count := fun _ _ => some (10, 20),
    get_owners := fun _ => some ["alice", "bob"],
    durations := ⟨0, 0, 0, 0, 0⟩ }

/-- Concrete row whose digest succeeds. -/
def rowW : DepRow :=
  ⟨"sample", 1, some [1, 2], false, some 100, 1, 2, 3, 4, 5, ComputationStatus.Pending⟩

/-- Concrete row whose tree digest fails. -/
def rowErrW : DepRow :=
  ⟨"sample", 1, none, false, none, 1, 2, 3, 4, 5, ComputationStatus.Pending⟩

/-- Computer with the known-owners skip armed. -/
def cSkipOwnW : DepComputer := { cW with skip_known_owners := true }

/-- Proof database that verifies every digest. -/
def dbVerW : ProofDB :=
  { dbW with verifyDigest := fun _ => true }

/-- Computer that verifies every digest and skips verified dependencies,
with an empty known-owners set. -/
def cVerSkipW : DepComputer :=
  { cW with skip_verified := true, known_owners := ([] : List String), db := dbVerW }

/-- Computer whose registry lookups and line count fail. -/
def cFailW : DepComputer :=
  { cW with get_downloads_count := fun _ _ => none, get_owners := fun _ => none }

/-! ## Verify-deps output line (cargo-crev src/main.rs, lines 330-362)

The per-dependency line printed by the Verify::Deps flow, modelled as the
ordered list of fields it emits: the verification glyph written by
term.stdout, then the println arguments in format-string order. -/

/-- One field of the printed per-dependency line. -/
inductive OutField
  | glyph (verified : Bool)
  | num (n : Nat)
  | str (s : String)
  | digestField (d : List Nat)
  | pathField (p : String)
deriving DecidableEq, Repr

/-- Join a list of strings with a separator, modelling Vec::join. -/
def joinWith (sep : String) : List String → String
  | [] => ""
  | [s] => s
  | s :: rest => s ++ sep ++ joinWith sep rest

/-- Embedding of the per-dependency output of the Verify::Deps closure
(src/cargo-crev/src/main.rs, lines 330-362): the glyph for the
verification result, the per-version and total review counts, the two
download counts (both replaced by the err marker when the lookup fails),
then — only in verbose mode — the digest, then the path and the
comma-joined owner list. -/
def verify_deps_line (verbose : Bool) (verified : Bool)
    (pkg_version_review_count pkg_review_count : Nat)
    (downloads : Option (Nat × Nat)) (digest : List Nat)
    (path : String) (owners : List String) : List OutField :=
  let version_downloads :=
    match downloads with
    | some (a, _) => toString a
    | none => "err"
  let total_downloads :=
    match downloads with
    | some (_, b) => toString b
    | none => "err"
  if verbose then
    [OutField.glyph verified, OutField.num pkg_version_review_count,
      OutField.num pkg_review_count, OutField.str version_downloads,
      OutField.str total_downloads, OutField.digestField digest,
      OutField.pathField path, OutField.str (joinWith ", " owners)]
  else
    [OutField.glyph verified, OutField.num pkg_version_review_count,
      OutField.num pkg_review_count, OutField.str version_downloads,
      OutField.str total_downloads,
      OutField.pathField path, OutField.str (joinWith ", " owners)]

theorem lookupPath_eq_none_iff {p : List String} {t : Tree} :
    lookupPath p t = none ↔ p ∉ keys t := by
  induction t with
  | nil => simp [lookupPath, keys]
  | cons e rest ih =>
    by_cases he : e.1 = p
    · simp [lookupPath, he, keys]
    · simp only [lookupPath, if_neg he, keys, List.map_cons, List.mem_cons, not_or, ih]
      constructor
      · intro h
        exact ⟨fun hpe => he hpe.symm, h⟩
      · intro h
        exact h.2

theorem lookupPath_eq_some_of_mem {p : List String} {c : List Nat} {t : Tree}
    (hnd : (keys t).Nodup) (hm : (p, c) ∈ t) : lookupPath p t = some c := by
  induction t with
  | nil => simp at hm
  | cons e rest ih =>
    simp only [keys, List.map_cons, List.nodup_cons] at hnd
    rcases List.mem_cons.mp hm with he | hrest
    · rw [← he]
      simp [lookupPath]
    · have hpk : p ∈ keys rest := by
        simpa [keys] using List.mem_map_of_mem (fun x => x.1) hrest
      have hne : e.1 ≠ p := fun hep => hnd.1 (hep ▸ hpk)
      simp only [lookupPath, if_neg hne]
      exact ih hnd.2 hrest

theorem mem_of_lookupPath_eq_some {p : List String} {c : List Nat} {t : Tree}
    (h : lookupPath p t = some c) : (p, c) ∈ t := by
  induction t with
  | nil => simp [lookupPath] at h
  | cons e rest ih =>
    obtain ⟨e1, e2⟩ := e
    by_cases he : e1 = p
    · simp only [lookupPath, if_pos he, Option.some.injEq] at h
      exact List.mem_cons.mpr (Or.inl (by rw [he, h]))
    · simp only [lookupPath, if_neg he] at h
      exact List.mem_cons_of_mem _ (ih h)

theorem lookupPath_eq_of_perm {t1 t2 : Tree} (hnd : (keys t1).Nodup)
    (hp : t1.Perm t2) (p : List String) : lookupPath p t1 = lookupPath p t2 := by
  have hkp : (keys t1).Perm (keys t2) := by
    unfold keys
    exact hp.map _
  have hnd2 : (keys t2).Nodup := hkp.nodup_iff.mp hnd
  cases hl : lookupPath p t1 with
  | none =>
    have hk : p ∉ keys t1 := lookupPath_eq_none_iff.mp hl
    exact (lookupPath_eq_none_iff.mpr (fun hm => hk (hkp.mem_iff.mpr hm))).symm
  | some c =>
    exact (lookupPath_eq_some_of_mem hnd2 (hp.mem_iff.mp (mem_of_lookupPath_eq_some hl))).symm

theorem perm_of_lookupPath_eq {t1 t2 : Tree} (h1 : (keys t1).Nodup)
    (h2 : (keys t2).Nodup) (h : ∀ p, lookupPath p t1 = lookupPath p t2) :
    t1.Perm t2 := by
  refine (List.perm_ext_iff_of_nodup (List.Nodup.of_map _ h1) (List.Nodup.of_map _ h2)).mpr ?_
  rintro ⟨p, c⟩
  constructor
  · intro hm
    exact mem_of_lookupPath_eq_some ((h p) ▸ lookupPath_eq_some_of_mem h1 hm)
  · intro hm
    exact mem_of_lookupPath_eq_some ((h p).symm ▸ lookupPath_eq_some_of_mem h2 hm)

theorem keys_included_nodup {t : Tree} {ign : List (List String)}
    (h : (keys t).Nodup) : (keys (included t ign)).Nodup :=
  h.sublist (List.Sublist.map _ (List.filter_sublist t))

theorem lookupPath_included_of_not_ignored {t : Tree} {ign : List (List String)}
    {p : List String} (h : p ∉ ign) :
    lookupPath p (included t ign) = lookupPath p t := by
  induction t with
  | nil => rfl
  | cons e rest ih =>
    simp only [included, List.filter_cons] at ih ⊢
    by_cases hm : e.1 ∈ ign
    · have he : e.1 ≠ p := fun hep => h (hep ▸ hm)
      rw [show (!decide (e.1 ∈ ign)) = false by simp [hm]]
      simp only [lookupPath, if_neg he, Bool.false_eq_true, if_false]
      exact ih
    · rw [show (!decide (e.1 ∈ ign)) = true by simp [hm]]
      by_cases he : e.1 = p
      · simp [lookupPath, he]
      · simp only [lookupPath, if_neg he, if_true]
        exact ih

theorem lookupPath_included_of_ignored {t : Tree} {ign : List (List String)}
    {p : List String} (h : p ∈ ign) :
    lookupPath p (included t ign) = none := by
  refine lookupPath_eq_none_iff.mpr ?_
  intro hk
  simp only [keys, included, List.mem_map] at hk
  obtain ⟨e, he, hep⟩ := hk
  have := (List.mem_filter.mp he).2
  rw [hep] at this
  simp [h] at this

theorem sort_eq_iff_perm {l1 l2 : Tree} :
    List.insertionSort entryLe l1 = List.insertionSort entryLe l2 ↔ l1.Perm l2 := by
  constructor
  · intro h
    exact (List.perm_insertionSort entryLe l1).symm.trans
      (h ▸ List.perm_insertionSort entryLe l2)
  · intro h
    exact List.eq_of_perm_of_sorted
      (((List.perm_insertionSort entryLe l1).trans h).trans
        (List.perm_insertionSort entryLe l2).symm)
      (List.sorted_insertionSort entryLe l1) (List.sorted_insertionSort entryLe l2)

theorem included_setContent {t : Tree} {ign : List (List String)}
    {p : List String} {c : List Nat} (h : p ∈ ign) :
    included (setContent t p c) ign = included t ign := by
  induction t with
  | nil => rfl
  | cons e rest ih =>
    simp only [setContent, List.map_cons, included, List.filter_cons] at ih ⊢
    by_cases he : e.1 = p
    · have hm : e.1 ∈ ign := he ▸ h
      rw [if_pos he]
      rw [show (!decide ((e.1, c).1 ∈ ign)) = false by simp [hm]]
      simp only [Bool.false_eq_true, if_false]
      exact ih
    · rw [if_neg he]
      by_cases hm : e.1 ∈ ign
      · rw [show (!decide (e.1 ∈ ign)) = false by simp [hm]]
        simp only [Bool.false_eq_true, if_false]
        exact ih
      · rw [show (!decide (e.1 ∈ ign)) = true by simp [hm]]
        simp only [if_true]
        rw [ih]

/-- C3: for trees with distinct file paths and a fixed ignore list, the
content digests agree exactly when the two trees store the same content at
every non-ignored relative path (same included paths, same bytes); and
changing only the content of an ignored file leaves the digest unchanged. -/
theorem c3_content_digest_eq_iff (t1 t2 : Tree) (ign : List (List String))
    (h1 : (keys t1).Nodup) (h2 : (keys t2).Nodup) :
    (ContentDigest t1 ign = ContentDigest t2 ign ↔
      ∀ p, p ∉ ign → lookupPath p t1 = lookupPath p t2) ∧
    (∀ (t : Tree) (p : List String) (c : List Nat), p ∈ ign →
      ContentDigest (setContent t p c) ign = ContentDigest t ign) := by
  constructor
  · constructor
    · intro hd p hp
      have hperm : (included t1 ign).Perm (included t2 ign) := sort_eq_iff_perm.mp hd
      calc lookupPath p t1
          = lookupPath p (included t1 ign) := (lookupPath_included_of_not_ignored hp).symm
        _ = lookupPath p (included t2 ign) :=
            lookupPath_eq_of_perm (keys_included_nodup h1) hperm p
        _ = lookupPath p t2 := lookupPath_included_of_not_ignored hp
    · intro hl
      refine sort_eq_iff_perm.mpr ?_
      refine perm_of_lookupPath_eq (keys_included_nodup h1) (keys_included_nodup h2) ?_
      intro p
      by_cases hp : p ∈ ign
      · rw [lookupPath_included_of_ignored hp, lookupPath_included_of_ignored hp]
      · rw [lookupPath_included_of_not_ignored hp, lookupPath_included_of_not_ignored hp]
        exact hl p hp
  · intro t p c hp
    unfold ContentDigest
    rw [included_setContent hp]

/-- Witness for C3 at concrete trees: two trees that differ only in the
content of the ignored lockfile have equal digests; the nodup hypotheses are
discharged by evaluation. -/
theorem c3_content_digest_eq_iff_witness :
    (ContentDigest [(["Cargo.lock"], [1]), (["src", "lib.rs"], [10, 20])] [["Cargo.lock"]] =
        ContentDigest [(["src", "lib.rs"], [10, 20]), (["Cargo.lock"], [2])] [["Cargo.lock"]] ↔
      ∀ p, p ∉ [["Cargo.lock"]] →
        lookupPath p [(["Cargo.lock"], [1]), (["src", "lib.rs"], [10, 20])] =
          lookupPath p [(["src", "lib.rs"], [10, 20]), (["Cargo.lock"], [2])]) ∧
    (∀ (t : Tree) (p : List String) (c : List Nat), p ∈ [["Cargo.lock"]] →
      ContentDigest (setContent t p c) [["Cargo.lock"]] = ContentDigest t [["Cargo.lock"]]) :=
  c3_content_digest_eq_iff
    [(["Cargo.lock"], [1]), (["src", "lib.rs"], [10, 20])]
    [(["src", "lib.rs"], [10, 20]), (["Cargo.lock"], [2])]
    [["Cargo.lock"]] (by decide) (by decide)

theorem sign_mem_rc_compare {ev : List RcEvent} {rdir : List String}
    {dc dr : List Nat} {rrOk sOk : Bool}
    (hs : RcEvent.sign ∈ (rc_compare ev rdir dc dr rrOk sOk).events) :
    RcEvent.sign ∈ ev ∨ dc = dr := by
  unfold rc_compare at hs
  split at hs
  · exact Or.inl hs
  · rename_i hne
    exact Or.inr (not_not.mp hne)

theorem sign_mem_rc_digests {ev : List RcEvent} {rdir : List String}
    {dgc dgr : Option (List Nat)} {rrOk sOk : Bool}
    (hs : RcEvent.sign ∈ (rc_digests ev rdir dgc dgr rrOk sOk).events) :
    RcEvent.sign ∈ ev ∨ ∃ d, dgc = some d ∧ dgr = some d := by
  unfold rc_digests at hs
  cases dgc with
  | none => exact Or.inl hs
  | some dc =>
    cases dgr with
    | none => exact Or.inl hs
    | some dr =>
      rcases sign_mem_rc_compare hs with h | h
      · exact Or.inl h
      · exact Or.inr ⟨dc, rfl, by rw [h]⟩

theorem sign_mem_rc_fetch2 {ev : List RcEvent} {rdir p : List String} {v : Nat}
    {find2 : Option (List String × Nat)} {dgc dgr : Option (List Nat)}
    {rrOk sOk : Bool}
    (hs : RcEvent.sign ∈ (rc_fetch2 ev rdir p v find2 dgc dgr rrOk sOk).events) :
    RcEvent.sign ∈ ev ∨ ∃ d, dgc = some d ∧ dgr = some d := by
  unfold rc_fetch2 at hs
  cases find2 with
  | none => exact Or.inl hs
  | some pv2 =>
    obtain ⟨p2, v2⟩ := pv2
    dsimp only at hs
    split at hs
    · rcases List.mem_append.mp hs with h | h
      · exact Or.inl h
      · simp at h
    · rcases sign_mem_rc_digests hs with h | h
      · rcases List.mem_append.mp h with h2 | h2
        · exact Or.inl h2
        · simp at h2
      · exact Or.inr h

theorem sign_mem_events_digests_eq {env : RcEnv}
    (hs : RcEvent.sign ∈ (review_crate env).events) :
    ∃ d, env.digestClean = some d ∧ env.digestReviewed = some d := by
  obtain ⟨cwd, find1, fetch1, localOk, qe, roOk, rnOk, find2, dgc, dgr, rrOk, sOk⟩ := env
  dsimp only [review_crate] at hs
  have hev0 : RcEvent.sign ∉ (if fetch1 = true then [RcEvent.fetch] else []) := by
    cases fetch1 <;> simp
  cases find1 with
  | none => exact absurd hs hev0
  | some pv =>
    obtain ⟨p, v⟩ := pv
    dsimp only at hs
    have hev1 : RcEvent.sign ∉
        (if qe = true then
          (if fetch1 = true then [RcEvent.fetch] else []) ++
            [RcEvent.removeDir (withReviewedExt p)]
        else if fetch1 = true then [RcEvent.fetch] else []) := by
      cases qe <;> cases fetch1 <;> simp
    split at hs
    · exact absurd hs hev0
    · split at hs
      · exact absurd hs hev0
      · split at hs
        · exact absurd hs hev0
        · split at hs
          · exact absurd hs hev1
          · rcases sign_mem_rc_fetch2 hs with h | h
            · rcases List.mem_append.mp h with h2 | h2
              · exact absurd h2 hev1
              · simp at h2
            · exact h

theorem review_crate_reaches_compare (env : RcEnv) (p : List String) (v : Nat)
    (dc dr : List Nat)
    (hfind1 : env.find1 = some (p, v))
    (hpath : pathStartsWith p env.cwd = false)
    (hlocal : env.localOk = true)
    (hquar : (env.quarantineExists && !env.removeOldOk) = false)
    (hren : env.renameOk = true)
    (hfind2 : env.find2 = some (p, v))
    (hdc : env.digestClean = some dc)
    (hdr : env.digestReviewed = some dr) :
    review_crate env =
      rc_compare
        (((if env.quarantineExists = true then
            (if env.fetch1 = true then [RcEvent.fetch] else []) ++
              [RcEvent.removeDir (withReviewedExt p)]
          else if env.fetch1 = true then [RcEvent.fetch] else []) ++
          [RcEvent.rename p (withReviewedExt p)]) ++ [RcEvent.fetch])
        (withReviewedExt p) dc dr env.removeReviewedOk env.signOk := by
  unfold review_crate
  rw [hfind1]
  dsimp only
  rw [hpath, hlocal, hquar, hren]
  simp only [Bool.false_eq_true, if_false, Bool.not_true]
  unfold rc_fetch2
  rw [hfind2]
  dsimp only
  rw [if_neg (by simp)]
  unfold rc_digests
  rw [hdc, hdr]

/-- C1: in review_crate, once the run reaches the digest comparison, it
fails with a digest mismatch error exactly when the digest of the
quarantined copy differs from the digest of the freshly fetched copy; on a
mismatch both copies stay on disk and the run never signs; on equality the
quarantine copy is deleted and the clean digest is returned and signed;
and, over every environment, a signing step implies the two digests were
computed and equal. -/
theorem c1_tamper_evident_capture (env : RcEnv) (p : List String) (v : Nat)
    (dc dr : List Nat)
    (hfind1 : env.find1 = some (p, v))
    (hpath : pathStartsWith p env.cwd = false)
    (hlocal : env.localOk = true)
    (hquar : (env.quarantineExists && !env.removeOldOk) = false)
    (hren : env.renameOk = true)
    (hfind2 : env.find2 = some (p, v))
    (hdc : env.digestClean = some dc)
    (hdr : env.digestReviewed = some dr) :
    ((review_crate env).result = Except.error (RcError.digestMismatch dc dr) ↔ dc ≠ dr) ∧
    (dc ≠ dr →
      (review_crate env).pkgPresent = true ∧
      (review_crate env).quarantinePresent = true ∧
      RcEvent.sign ∉ (review_crate env).events) ∧
    (dc = dr → env.removeReviewedOk = true →
      RcEvent.removeDir (withReviewedExt p) ∈ (review_crate env).events ∧
      (review_crate env).quarantinePresent = false ∧
      (env.signOk = true →
        (review_crate env).result = Except.ok dc ∧
        RcEvent.sign ∈ (review_crate env).events)) ∧
    (∀ env2 : RcEnv, RcEvent.sign ∈ (review_crate env2).events →
      ∃ d, env2.digestClean = some d ∧ env2.digestReviewed = some d) := by
  have heq := review_crate_reaches_compare env p v dc dr hfind1 hpath hlocal hquar
    hren hfind2 hdc hdr
  rw [heq]
  refine ⟨?_, ?_, ?_, fun env2 hs => sign_mem_events_digests_eq hs⟩
  · unfold rc_compare
    by_cases hne : dc = dr
    · rw [if_neg (not_not_intro hne)]
      cases hr : env.removeReviewedOk <;> cases hsk : env.signOk <;>
        simp [hne]
    · rw [if_pos hne]
      simp [hne]
  · intro hne
    unfold rc_compare
    rw [if_pos hne]
    refine ⟨rfl, rfl, ?_⟩
    cases hf : env.fetch1 <;> cases hq : env.quarantineExists <;> simp [hf, hq]
  · intro hde hrr
    unfold rc_compare
    rw [if_neg (not_not_intro hde), hrr]
    simp only [Bool.not_true, Bool.false_eq_true, if_false]
    refine ⟨?_, ?_, ?_⟩
    · split <;> simp
    · split <;> rfl
    · intro hsk
      rw [hsk]
      simp

/-- Witness for C1: at rcEnvOk every hypothesis is discharged by
evaluation, and the conclusion instantiates the theorem. -/
theorem c1_tamper_evident_capture_witness :
    (((review_crate rcEnvOk).result =
        Except.error (RcError.digestMismatch [7, 7, 7] [7, 7, 7]) ↔
      ([7, 7, 7] : List Nat) ≠ [7, 7, 7]) ∧
    (([7, 7, 7] : List Nat) ≠ [7, 7, 7] →
      (review_crate rcEnvOk).pkgPresent = true ∧
      (review_crate rcEnvOk).quarantinePresent = true ∧
      RcEvent.sign ∉ (review_crate rcEnvOk).events) ∧
    (([7, 7, 7] : List Nat) = [7, 7, 7] → rcEnvOk.removeReviewedOk = true →
      RcEvent.removeDir (withReviewedExt ["registry", "src", "dep"]) ∈
        (review_crate rcEnvOk).events ∧
      (review_crate rcEnvOk).quarantinePresent = false ∧
      (rcEnvOk.signOk = true →
        (review_crate rcEnvOk).result = Except.ok [7, 7, 7] ∧
        RcEvent.sign ∈ (review_crate rcEnvOk).events)) ∧
    (∀ env2 : RcEnv, RcEvent.sign ∈ (review_crate env2).events →
      ∃ d, env2.digestClean = some d ∧ env2.digestReviewed = some d)) :=
  c1_tamper_evident_capture rcEnvOk ["registry", "src", "dep"] 1 [7, 7, 7] [7, 7, 7]
    rfl rfl rfl rfl rfl rfl rfl rfl

/-- C2 counterexample: on a target inside the working directory the run is
rejected with a Policy error, but a fetch has already happened during the
preceding crate lookup, so it is not true that no fetch occurs before the
rejection. -/
theorem c2_counterexample :
    (review_crate rcEnvInside).result = Except.error RcError.policy ∧
    RcEvent.fetch ∈ (review_crate rcEnvInside).events :=
  ⟨rfl, by decide⟩

/-- C2 (amended): a target path inside the working directory of the caller
is rejected with a Policy error before any delete or move occurs — the
only event that can precede the rejection is the package fetch performed
by the crate lookup itself, and both directories are left untouched. -/
theorem c2_policy_rejection (env : RcEnv) (p : List String) (v : Nat)
    (hfind1 : env.find1 = some (p, v))
    (hpath : pathStartsWith p env.cwd = true) :
    (review_crate env).result = Except.error RcError.policy ∧
    (∀ e ∈ (review_crate env).events, e = RcEvent.fetch) ∧
    (review_crate env).pkgPresent = true ∧
    (review_crate env).quarantinePresent = env.quarantineExists := by
  unfold review_crate
  rw [hfind1]
  dsimp only
  rw [hpath]
  simp only [if_pos rfl]
  refine ⟨rfl, ?_, rfl, rfl⟩
  cases hf : env.fetch1 <;> simp [hf]

/-- Witness for C2 at rcEnvInside. -/
theorem c2_policy_rejection_witness :
    (review_crate rcEnvInside).result = Except.error RcError.policy ∧
    (∀ e ∈ (review_crate rcEnvInside).events, e = RcEvent.fetch) ∧
    (review_crate rcEnvInside).pkgPresent = true ∧
    (review_crate rcEnvInside).quarantinePresent = rcEnvInside.quarantineExists :=
  c2_policy_rejection rcEnvInside ["home", "user", "proj", "vendor", "dep"] 1 rfl rfl

theorem try_compute_digest_err {c : DepComputer} {row : DepRow}
    (hd : row.digest_result = none) :
    try_compute c row = (c, Except.error ()) := by
  unfold try_compute
  rw [hd]

theorem try_compute_verified_skip {c : DepComputer} {row : DepRow}
    {digest : List Nat} (hd : row.digest_result = some digest)
    (hv : (c.db.verifyDigest digest && c.skip_verified) = true) :
    try_compute c row =
      ({ c with durations := bump_digest_total c.durations row }, Except.ok none) := by
  unfold try_compute
  rw [hd]
  dsimp only
  rw [hv]
  rfl

theorem try_compute_owners_skip {c : DepComputer} {row : DepRow}
    {digest : List Nat} (hd : row.digest_result = some digest)
    (hv : (c.db.verifyDigest digest && c.skip_verified) = false)
    (ho : owners_skip c row.name = true) :
    try_compute c row =
      ({ c with durations := bump_digest_total c.durations row }, Except.ok none) := by
  unfold try_compute
  rw [hd]
  dsimp only
  rw [hv]
  simp only [Bool.false_eq_true, if_false]
  rw [show owners_skip
      { c with durations :=
        { c.durations with digest := c.durations.digest + row.tDigest } } row.name = true from ho]
  rfl

theorem try_compute_full {c : DepComputer} {row : DepRow}
    {digest : List Nat} (hd : row.digest_result = some digest)
    (hv : (c.db.verifyDigest digest && c.skip_verified) = false)
    (ho : owners_skip c row.name = false) :
    try_compute c row =
      ({ c with durations := bump_all c.durations row },
        Except.ok (some (full_dep c row digest))) := by
  unfold try_compute
  rw [hd]
  dsimp only
  rw [hv]
  simp only [Bool.false_eq_true, if_false]
  rw [show owners_skip
      { c with durations :=
        { c.durations with digest := c.durations.digest + row.tDigest } } row.name = false from ho]
  simp only [Bool.false_eq_true, if_false]
  rfl

theorem try_compute_result_durations (c : DepComputer) (d : Durations) (row : DepRow) :
    (try_compute { c with durations := d } row).2 = (try_compute c row).2 := by
  rcases hd : row.digest_result with _ | digest
  · rw [@try_compute_digest_err { c with durations := d } row hd,
      try_compute_digest_err hd]
  · cases hv : (c.db.verifyDigest digest && c.skip_verified) with
    | true =>
      rw [@try_compute_verified_skip { c with durations := d } row digest hd hv,
        try_compute_verified_skip hd hv]
    | false =>
      cases ho : owners_skip c row.name with
      | true =>
        rw [@try_compute_owners_skip { c with durations := d } row digest hd hv ho,
          try_compute_owners_skip hd hv ho]
      | false =>
        rw [@try_compute_full { c with durations := d } row digest hd hv ho,
          try_compute_full hd hv ho]
        rfl

theorem try_compute_only_durations (c : DepComputer) (row : DepRow) :
    ∃ d, (try_compute c row).1 = { c with durations := d } := by
  rcases hd : row.digest_result with _ | digest
  · rw [try_compute_digest_err hd]
    exact ⟨c.durations, rfl⟩
  · cases hv : (c.db.verifyDigest digest && c.skip_verified) with
    | true =>
      rw [try_compute_verified_skip hd hv]
      exact ⟨_, rfl⟩
    | false =>
      cases ho : owners_skip c row.name with
      | true =>
        rw [try_compute_owners_skip hd hv ho]
        exact ⟨_, rfl⟩
      | false =>
        rw [try_compute_full hd hv ho]
        exact ⟨_, rfl⟩

theorem statusAfter_eq (c : DepComputer) (row : DepRow) :
    statusAfter c row =
      match (try_compute c row).2 with
      | Except.ok (some dep) => ComputationStatus.Ok dep
      | Except.ok none => ComputationStatus.Skipped
      | Except.error _ => ComputationStatus.Failed := by
  unfold statusAfter compute
  rcases h : try_compute c { row with computation_status := ComputationStatus.InProgress }
    with ⟨c2, res⟩
  have h2 : try_compute c row = (c2, res) := h
  rw [h2]
  dsimp only
  rw [h]
  cases res with
  | ok o => cases o <;> rfl
  | error e => rfl

theorem reportAfter_eq (c : DepComputer) (row : DepRow) :
    reportAfter c row =
      match (try_compute c row).2 with
      | Except.ok _ => none
      | Except.error _ => some "Computation Failed" := by
  unfold reportAfter compute
  rcases h : try_compute c { row with computation_status := ComputationStatus.InProgress }
    with ⟨c2, res⟩
  have h2 : try_compute c row = (c2, res) := h
  rw [h2]
  dsimp only
  rw [h]
  cases res with
  | ok o => cases o <;> rfl
  | error e => rfl

theorem statusAfter_durations (c : DepComputer) (d : Durations) (row : DepRow) :
    statusAfter { c with durations := d } row = statusAfter c row := by
  rw [statusAfter_eq, statusAfter_eq, try_compute_result_durations]

theorem reportAfter_durations (c : DepComputer) (d : Durations) (row : DepRow) :
    reportAfter { c with durations := d } row = reportAfter c row := by
  rw [reportAfter_eq, reportAfter_eq, try_compute_result_durations]

theorem compute_only_durations (c : DepComputer) (row : DepRow) :
    ∃ d, (compute c row).1 = { c with durations := d } := by
  unfold compute
  obtain ⟨d, hd⟩ := try_compute_only_durations c
    { row with computation_status := ComputationStatus.InProgress }
  rcases h : try_compute c { row with computation_status := ComputationStatus.InProgress }
    with ⟨c2, res⟩
  rw [h] at hd
  dsimp only
  rw [h]
  cases res with
  | ok o => cases o <;> exact ⟨d, hd⟩
  | error e => exact ⟨d, hd⟩

/-- C7: in a batch, the final status and the report of every dependency
row are exactly what a standalone compute of that row under the shared
configuration produces — no row is influenced by the outcome of any other
row — and a fatal try_compute error makes exactly that row Failed with the
error reported. -/
theorem c7_failure_isolated (c : DepComputer) (rows : List DepRow) :
    ((computeBatch c rows).2.1.map (fun r => r.computation_status) =
        rows.map (statusAfter c) ∧
      (computeBatch c rows).2.2 = rows.map (reportAfter c)) ∧
    (∀ row : DepRow, (try_compute c row).2 = Except.error () →
      statusAfter c row = ComputationStatus.Failed ∧
      reportAfter c row = some "Computation Failed") := by
  constructor
  · induction rows generalizing c with
    | nil => exact ⟨rfl, rfl⟩
    | cons row rest ih =>
      unfold computeBatch
      obtain ⟨d, hc1⟩ := compute_only_durations c row
      obtain ⟨ihs, ihr⟩ := ih (compute c row).1
      constructor
      · simp only [List.map_cons]
        refine congrArg₂ _ rfl ?_
        rw [ihs, hc1]
        exact List.map_eq_map_iff.mpr (fun r _ => statusAfter_durations c d r)
      · simp only [List.map_cons]
        refine congrArg₂ _ rfl ?_
        rw [ihr, hc1]
        exact List.map_eq_map_iff.mpr (fun r _ => reportAfter_durations c d r)
  · intro row herr
    rw [statusAfter_eq, reportAfter_eq, herr]
    exact ⟨rfl, rfl⟩

theorem length_filter_mono {α : Type} (l : List α) (p q : α → Bool)
    (h : ∀ a, p a = true → q a = true) :
    (l.filter p).length ≤ (l.filter q).length := by
  induction l with
  | nil => exact Nat.le_refl 0
  | cons a t ih =>
    cases hpa : p a with
    | true =>
      have hqa := h a hpa
      simp only [List.filter_cons, hpa, hqa, if_true, List.length_cons]
      exact Nat.succ_le_succ ih
    | false =>
      cases hqa : q a with
      | true =>
        simp only [List.filter_cons, hpa, hqa, Bool.false_eq_true, if_false, if_true,
          List.length_cons]
        exact Nat.le_succ_of_le ih
      | false =>
        simp only [List.filter_cons, hpa, hqa, Bool.false_eq_true, if_false]
        exact ih

/-- C8: every record try_compute produces has version review count at most
the total review count, and both TrustCounts it builds (known owners
against all owners, trusted-reported issues against all issues) have the
trusted part at most the total. -/
theorem c8_count_invariants (c : DepComputer) (row : DepRow) (dep : Dep)
    (h : (try_compute c row).2 = Except.ok (some dep)) :
    dep.reviews.version ≤ dep.reviews.total ∧
    (∀ tc : TrustCount, dep.owners = some tc → tc.trusted ≤ tc.total) ∧
    dep.issues.trusted ≤ dep.issues.total := by
  rcases hd : row.digest_result with _ | digest
  · rw [try_compute_digest_err hd] at h
    simp at h
  · cases hv : (c.db.verifyDigest digest && c.skip_verified) with
    | true =>
      rw [try_compute_verified_skip hd hv] at h
      simp at h
    | false =>
      cases ho : owners_skip c row.name with
      | true =>
        rw [try_compute_owners_skip hd hv ho] at h
        simp at h
      | false =>
        rw [try_compute_full hd hv ho] at h
        simp only [Except.ok.injEq, Option.some.injEq] at h
        subst h
        refine ⟨?_, ?_, ?_⟩
        · simp only [full_dep, get_package_review_count]
          refine length_filter_mono _ _ _ ?_
          intro r hr
          simp only [Bool.and_eq_true] at hr ⊢
          exact ⟨hr.1, trivial⟩
        · intro tc htc
          simp only [full_dep] at htc
          cases hgo : c.get_owners row.name with
          | none =>
            rw [hgo] at htc
            simp at htc
          | some os =>
            rw [hgo] at htc
            simp only [Option.some.injEq] at htc
            rw [← htc]
            exact List.length_filter_le _ os
        · simp only [full_dep, get_open_issues_for_version]
          refine length_filter_mono _ _ _ ?_
          intro i hi
          simp only [Bool.and_eq_true, decide_eq_true_eq] at hi ⊢
          exact ⟨hi.1, Nat.zero_le _⟩

/-- C10: try_compute adds the elapsed total to durations.total on every Ok
and every Skipped outcome; on the error outcome it leaves the computer,
durations included, untouched (the only fallible call precedes every timer
update). -/
theorem c10_durations_total (c : DepComputer) (row : DepRow) :
    ((try_compute c row).2.isOk = true →
      (try_compute c row).1.durations.total = c.durations.total + row.tTotal) ∧
    ((try_compute c row).2.isOk = false → (try_compute c row).1 = c) := by
  rcases hd : row.digest_result with _ | digest
  · rw [try_compute_digest_err hd]
    exact ⟨fun hko => by simp [Except.isOk, Except.toBool] at hko, fun _ => rfl⟩
  · cases hv : (c.db.verifyDigest digest && c.skip_verified) with
    | true =>
      rw [try_compute_verified_skip hd hv]
      exact ⟨fun _ => rfl, fun hko => by simp [Except.isOk, Except.toBool] at hko⟩
    | false =>
      cases ho : owners_skip c row.name with
      | true =>
        rw [try_compute_owners_skip hd hv ho]
        exact ⟨fun _ => rfl, fun hko => by simp [Except.isOk, Except.toBool] at hko⟩
      | false =>
        rw [try_compute_full hd hv ho]
        exact ⟨fun _ => rfl, fun hko => by simp [Except.isOk, Except.toBool] at hko⟩

/-- C4 (amended): with the digest computed, if the digest verifies and
skipVerified is set, try_compute returns Skipped without running the
download, owner, issue, line-count or latest-trusted stages (their timers
stay untouched) while the elapsed total is still added; if verification
fails or the flag is unset, every stage executes and produces the full
record — unless the known-owners skip triggers, which stops the stages
after the owners lookup. -/
theorem c4_skip_verified_stages (c : DepComputer) (row : DepRow)
    (digest : List Nat) (hd : row.digest_result = some digest) :
    (c.db.verifyDigest digest = true → c.skip_verified = true →
      (try_compute c row).2 = Except.ok none ∧
      (try_compute c row).1.durations = bump_digest_total c.durations row) ∧
    ((c.db.verifyDigest digest = false ∨ c.skip_verified = false) →
      owners_skip c row.name = false →
      (try_compute c row).2 = Except.ok (some (full_dep c row digest)) ∧
      (try_compute c row).1.durations = bump_all c.durations row) := by
  constructor
  · intro hv hs
    rw [try_compute_verified_skip hd (by rw [hv, hs]; rfl)]
    exact ⟨rfl, rfl⟩
  · intro hnv ho
    have hv : (c.db.verifyDigest digest && c.skip_verified) = false := by
      rcases hnv with h | h <;> rw [h] <;> simp
    rw [try_compute_full hd hv ho]
    exact ⟨rfl, rfl⟩

/-- C5 (amended): with the digest computed, the verified skip not taken
and the owners lookup successful, try_compute returns Skipped exactly when
the owner list intersects the known-owners set and skipKnownOwners is
set. -/
theorem c5_skip_known_owners_iff (c : DepComputer) (row : DepRow)
    (digest : List Nat) (os : List String)
    (hd : row.digest_result = some digest)
    (hnv : (c.db.verifyDigest digest && c.skip_verified) = false)
    (hos : c.get_owners row.name = some os) :
    ((try_compute c row).2 = Except.ok none ↔
      0 < (known_owners_in c os).length ∧ c.skip_known_owners = true) := by
  have hosk : owners_skip c row.name =
      (decide (0 < (known_owners_in c os).length) && c.skip_known_owners) := by
    unfold owners_skip
    rw [hos]
  cases hsk : owners_skip c row.name with
  | true =>
    rw [try_compute_owners_skip hd hnv hsk]
    rw [hosk] at hsk
    simp only [Bool.and_eq_true, decide_eq_true_eq] at hsk
    simp only [true_iff]
    exact hsk
  | false =>
    rw [try_compute_full hd hnv hsk]
    rw [hosk] at hsk
    constructor
    · intro hcontr
      simp at hcontr
    · intro hrhs
      rw [hrhs.2] at hsk
      simp only [Bool.and_true, decide_eq_false_iff_not] at hsk
      exact absurd hrhs.1 hsk

/-- C6: the only fatal outcome of try_compute is the tree digest failure;
on the full path a failed download-count lookup, a failed owners lookup or
a failed line count each leave only the corresponding field absent while
the remaining stages (issues, latest trusted version) still produce their
values. -/
theorem c6_recoverable_collaborators (c : DepComputer) (row : DepRow) :
    ((try_compute c row).2.isOk = false → row.digest_result = none) ∧
    (∀ digest, row.digest_result = some digest →
      (c.db.verifyDigest digest && c.skip_verified) = false →
      owners_skip c row.name = false →
      (try_compute c row).2 = Except.ok (some (full_dep c row digest)) ∧
      (c.get_downloads_count row.name row.version = none →
        (full_dep c row digest).downloads = none) ∧
      (c.get_owners row.name = none → (full_dep c row digest).owners = none) ∧
      (row.loc_result = none → (full_dep c row digest).loc = none) ∧
      (full_dep c row digest).issues =
        ⟨(get_open_issues_for_version c.db row.name row.version c.trust_level).length,
          (get_open_issues_for_version c.db row.name row.version 0).length⟩ ∧
      (full_dep c row digest).latest_trusted_version = c.db.latestTrusted row.name) := by
  constructor
  · intro hko
    rcases hd : row.digest_result with _ | digest
    · rfl
    · exfalso
      cases hv : (c.db.verifyDigest digest && c.skip_verified) with
      | true =>
        rw [try_compute_verified_skip hd hv] at hko
        simp [Except.isOk, Except.toBool] at hko
      | false =>
        cases ho : owners_skip c row.name with
        | true =>
          rw [try_compute_owners_skip hd hv ho] at hko
          simp [Except.isOk, Except.toBool] at hko
        | false =>
          rw [try_compute_full hd hv ho] at hko
          simp [Except.isOk, Except.toBool] at hko
  · intro digest hd hnv ho
    refine ⟨by rw [try_compute_full hd hnv ho], ?_, ?_, ?_, rfl, rfl⟩
    · intro h
      simp only [full_dep]
      rw [h]
    · intro h
      simp only [full_dep]
      rw [h]
    · intro h
      simp only [full_dep]
      rw [h]

/-- C4 counterexample: the digest does not verify (so the claim asserts
every stage executes), yet with the known-owners skip armed try_compute
returns Skipped and the issue-stage timer is never advanced (the row
carries a positive issue-stage elapsed amount). -/
theorem c4_counterexample :
    cSkipOwnW.db.verifyDigest [1, 2] = false ∧
    rowW.tIssues = 2 ∧
    (try_compute cSkipOwnW rowW).2 = Except.ok none ∧
    (try_compute cSkipOwnW rowW).1.durations.issues = 0 :=
  ⟨rfl, rfl, rfl, rfl⟩

/-- Witness for C4: at cW and rowW the full path runs (verification fails,
no skip armed), producing the complete record with every stage timer
advanced. -/
theorem c4_skip_verified_stages_witness :
    (try_compute cW rowW).2 = Except.ok (some (full_dep cW rowW [1, 2])) ∧
    (try_compute cW rowW).1.durations = bump_all cW.durations rowW :=
  (c4_skip_verified_stages cW rowW [1, 2] rfl).2 (Or.inl rfl) rfl

/-- C5 counterexample: try_compute returns Skipped through the verified
skip although the known-owner intersection is empty and skipKnownOwners is
unset, refuting the claimed equivalence. -/
theorem c5_counterexample :
    (try_compute cVerSkipW rowW).2 = Except.ok none ∧
    cVerSkipW.skip_known_owners = false ∧
    known_owners_in cVerSkipW ["alice", "bob"] = [] :=
  ⟨rfl, rfl, rfl⟩

/-- Witness for C5 at cW and rowW: the equivalence instantiates with a
successful owners lookup. -/
theorem c5_skip_known_owners_iff_witness :
    ((try_compute cW rowW).2 = Except.ok none ↔
      0 < (known_owners_in cW ["alice", "bob"]).length ∧
        cW.skip_known_owners = true) :=
  c5_skip_known_owners_iff cW rowW [1, 2] ["alice", "bob"] rfl rfl rfl

/-- Witness for C6: with failing registry oracles the dependency still
completes with the download and owner fields absent. -/
theorem c6_recoverable_collaborators_witness :
    (try_compute cFailW rowW).2 = Except.ok (some (full_dep cFailW rowW [1, 2])) ∧
    (full_dep cFailW rowW [1, 2]).downloads = none ∧
    (full_dep cFailW rowW [1, 2]).owners = none :=
  ⟨((c6_recoverable_collaborators cFailW rowW).2 [1, 2] rfl rfl rfl).1,
    ((c6_recoverable_collaborators cFailW rowW).2 [1, 2] rfl rfl rfl).2.1 rfl,
    ((c6_recoverable_collaborators cFailW rowW).2 [1, 2] rfl rfl rfl).2.2.1 rfl⟩

/-- Witness for C8 at the concrete full record. -/
theorem c8_count_invariants_witness :
    (full_dep cW rowW [1, 2]).reviews.version ≤ (full_dep cW rowW [1, 2]).reviews.total ∧
    (∀ tc : TrustCount, (full_dep cW rowW [1, 2]).owners = some tc →
      tc.trusted ≤ tc.total) ∧
    (full_dep cW rowW [1, 2]).issues.trusted ≤ (full_dep cW rowW [1, 2]).issues.total :=
  c8_count_invariants cW rowW (full_dep cW rowW [1, 2]) rfl

/-- Witness for C10: the total advances by the elapsed amount on the Ok
outcome and the computer is untouched on the error outcome. -/
theorem c10_durations_total_witness :
    (try_compute cW rowW).1.durations.total = cW.durations.total + rowW.tTotal ∧
    (try_compute cW rowErrW).1 = cW :=
  ⟨(c10_durations_total cW rowW).1 rfl, (c10_durations_total cW rowErrW).2 rfl⟩

/-- Witness for C7: a two-row batch whose second row fails; the statuses
are exactly the standalone statuses and the failure is reported for the
failing row only. -/
theorem c7_failure_isolated_witness :
    ((computeBatch cW [rowW, rowErrW]).2.1.map (fun r => r.computation_status) =
        [rowW, rowErrW].map (statusAfter cW) ∧
      (computeBatch cW [rowW, rowErrW]).2.2 = [rowW, rowErrW].map (reportAfter cW)) ∧
    (statusAfter cW rowErrW = ComputationStatus.Failed ∧
      reportAfter cW rowErrW = some "Computation Failed") :=
  ⟨(c7_failure_isolated cW [rowW, rowErrW]).1,
    (c7_failure_isolated cW [rowW, rowErrW]).2 rowErrW rfl⟩

/-- C9 counterexample: in the default (non-verbose) mode the printed line
does not contain the digest at all, so the claimed field order — which
includes the digest between the download counts and the path — does not
hold of the per-dependency output line in general. -/
theorem c9_counterexample :
    OutField.digestField [7] ∉
      verify_deps_line false true 1 2 (some (3, 4)) [7] "path" ["alice"] ∧
    verify_deps_line false true 1 2 (some (3, 4)) [7] "path" ["alice"] =
      [OutField.glyph true, OutField.num 1, OutField.num 2,
        OutField.str "3", OutField.str "4",
        OutField.pathField "path", OutField.str "alice"] :=
  ⟨by decide, rfl⟩

/-- C9 (amended): in verbose mode the per-dependency line contains, in
order, the verification glyph, the per-version review count, the total
review count, the two download counts (each an err marker when the lookup
fails), the digest, the path and the comma-joined owner list; the default
non-verbose line omits the digest and keeps the rest of the order. -/
theorem c9_output_line_order (verified : Bool)
    (pkg_version_review_count pkg_review_count : Nat)
    (downloads : Option (Nat × Nat)) (digest : List Nat)
    (path : String) (owners : List String) :
    verify_deps_line true verified pkg_version_review_count pkg_review_count
        downloads digest path owners =
      [OutField.glyph verified, OutField.num pkg_version_review_count,
        OutField.num pkg_review_count,
        OutField.str (match downloads with
          | some (a, _) => toString a
          | none => "err"),
        OutField.str (match downloads with
          | some (_, b) => toString b
          | none => "err"),
        OutField.digestField digest, OutField.pathField path,
        OutField.str (joinWith ", " owners)] ∧
    verify_deps_line false verified pkg_version_review_count pkg_review_count
        downloads digest path owners =
      [OutField.glyph verified, OutField.num pkg_version_review_count,
        OutField.num pkg_review_count,
        OutField.str (match downloads with
          | some (a, _) => toString a
          | none => "err"),
        OutField.str (match downloads with
          | some (_, b) => toString b
          | none => "err"),
        OutField.pathField path,
        OutField.str (joinWith ", " owners)] := by
  rcases downloads with _ | ⟨a, b⟩ <;> exact ⟨rfl, rfl⟩

end Crev

